import Mathlib

/-!
Shallow embedding of `chatgpt-mcp-server` (src/server.js, final variant,
lines 272-500, which the earlier two concatenated drafts and
src/unnamed/part_001 duplicate).

Streaming channels (`SSEServerTransport` instances) are identified by
natural numbers; object identity in JavaScript is modelled by a freshness
counter `nextId` carried in the broker state.  The session map
`transports` (a JS `Map`, insertion-ordered, unique keys) is an
association list; the `pending` array is a list whose end is the top of
the stack (`push` appends, `pop` removes the last element).
-/

namespace MCPServer

/-- A streaming channel identity (an `SSEServerTransport` object in the source). -/
abbrev Channel := Nat

/-- An HTTP response: status code plus body.  `body := none` models a response
whose body is written by the external transport library rather than by
`server.js` itself. -/
structure Response where
  status : Nat
  body : Option String
deriving DecidableEq, Repr

/-- The broker state owned by the module: `transports` is the JS
`Map` from `sessionId` to transport (src/server.js line 364), `pending` is the
array of transports staged by `GET /sse` (line 366).  `nextId` models the
supply of fresh JS object identities for newly constructed transports. -/
structure Broker where
  transports : List (String × Channel)
  pending : List Channel
  nextId : Nat
deriving DecidableEq, Repr

/-- The broker state at process start: both collections empty. -/
def initBroker : Broker := ⟨[], [], 0⟩

/-- JS `Map.has`. -/
def mapHas (m : List (String × Channel)) (k : String) : Bool :=
  (m.lookup k).isSome

/-- JS `Map.set`: update in place when the key exists (keeping insertion
order), otherwise append a new entry. -/
def mapSet (m : List (String × Channel)) (k : String) (v : Channel) :
    List (String × Channel) :=
  if mapHas m k then
    m.map (fun p => if p.1 == k then (k, v) else p)
  else
    m ++ [(k, v)]

/-- The `res.on("close")` cleanup loop over `transports.entries()`
(src/server.js lines 439-444): delete the first entry whose value is the
closing transport, then `break`. -/
def deleteFirstVal (m : List (String × Channel)) (t : Channel) :
    List (String × Channel) :=
  match m with
  | [] => []
  | p :: rest => if p.2 == t then rest else p :: deleteFirstVal rest t

/-- JS truthiness of the `sid` value in the POST handler: `null` and the
empty string are falsy, every other string is truthy. -/
def sidTruthy : Option String → Bool
  | none => false
  | some s => s != ""

/-- The string carried by a truthy `sid` (unused on the falsy branches). -/
def sidVal : Option String → String
  | none => ""
  | some s => s

/-- Channel-resolution logic of the `POST /sse` handler
(src/server.js lines 463-474):
reuse a bound channel when `sid` is truthy and present in the map;
otherwise, for a truthy `sid`, pop the most recently staged channel and
bind it; with no (or an empty) `sid`, peek the most recently staged
channel without removing it.  Returns the resolved channel (or `none`)
together with the updated broker state. -/
def resolve (sid : Option String) (st : Broker) : Option Channel × Broker :=
  if sidTruthy sid && mapHas st.transports (sidVal sid) then
    (st.transports.lookup (sidVal sid), st)
  else if sidTruthy sid then
    match st.pending.getLast? with
    | some t =>
        (some t, { st with pending := st.pending.dropLast,
                           transports := mapSet st.transports (sidVal sid) t })
    | none => (none, st)
  else
    (st.pending.getLast?, st)

/-- `pending.push(transport)` performed by the `GET /sse` handler
(src/server.js line 432). -/
def registerStaged (t : Channel) (st : Broker) : Broker :=
  { st with pending := st.pending ++ [t] }

/-- The `res.on("close")` cleanup handler (src/server.js lines 435-445):
remove the transport from `pending` via `indexOf`/`splice` (first
occurrence) and delete the first session-map entry holding it. -/
def unregister (t : Channel) (st : Broker) : Broker :=
  { st with pending := st.pending.erase t,
            transports := deleteFirstVal st.transports t }

/-- A successful `GET /sse`: a fresh transport object is constructed and
staged.  Freshness of the JS object identity is modelled by drawing
`nextId` and incrementing it. -/
def stageFresh (st : Broker) : Broker :=
  { registerStaged st.nextId st with nextId := st.nextId + 1 }

/-- Split a character list on a separator character (used to model the
platform URL and query-string parsing character by character). -/
def splitOnChar (c : Char) : List Char → List (List Char)
  | [] => [[]]
  | x :: xs =>
      let r := splitOnChar c xs
      if x == c then [] :: r
      else
        match r with
        | [] => [[x]]
        | y :: ys => (x :: y) :: ys

/-- Rejoin character chunks with a separator character. -/
def intercalateChar (c : Char) : List (List Char) → List Char
  | [] => []
  | [x] => x
  | x :: y :: xs => x ++ c :: intercalateChar c (y :: xs)

/-- JS `url.startsWith(p)`. -/
def strStartsWith (s p : String) : Bool :=
  p.toList.isPrefixOf s.toList

/-- `getSessionId` (src/server.js lines 368-375): parse the request URL and
return `searchParams.get("sessionId")` — the first `sessionId` query value,
or `null` when the parameter is absent.  The platform `URL` /
`URLSearchParams` behaviour is modelled character by character: the query
is everything after the first `?`, parameters are split on `&`, a
parameter written without `=` yields the empty string.  Percent-decoding
is not modelled (no claim involves encoded characters). -/
def getSessionId (url : String) : Option String :=
  match splitOnChar '?' url.toList with
  | [] => none
  | [_] => none
  | _ :: rest =>
      let query := intercalateChar '?' rest
      (splitOnChar '&' query).findSome? fun p =>
        match splitOnChar '=' p with
        | [] => none
        | k :: vs =>
            if k == "sessionId".toList then
              some (String.mk (intercalateChar '=' vs))
            else none

/-- Outcomes of the external transport library's calls, which `server.js`
awaits: whether `new SSEServerTransport` / `mcp.connect` succeed, whether
`transport.handlePostMessage` succeeds, and the JSON method listing that
`/debug-transport` serializes from `SSEServerTransport.prototype`. -/
structure Ext where
  sseSetupOk : Bool
  deliveryOk : Bool
  debugBody : String
deriving DecidableEq, Repr

/-- What the HTTP handler does with the response object: either a response
is written, or (`GET /sse` success) the connection is held open as the
stream. -/
inductive HResult where
  | responded (r : Response)
  | streamOpen
deriving DecidableEq, Repr

/-- The `POST /sse` branch (src/server.js lines 459-491): resolve a channel;
409 with an explanatory body when none resolves; otherwise hand the request
to `transport.handlePostMessage`, which writes the 200 response itself on
success (its body is the transport's, hence `none`), while a delivery
exception is caught and answered with 500.  The middle component is the
channel the message was delivered to (`none` on the 409 path). -/
def handlePost (sid : Option String) (deliveryOk : Bool) (st : Broker) :
    Response × Option Channel × Broker :=
  match resolve sid st with
  | (none, st') =>
      (⟨409, some "No active SSE transport. Open GET /sse first."⟩, none, st')
  | (some t, st') =>
      if deliveryOk then (⟨200, none⟩, some t, st')
      else (⟨500, some "POST handler error"⟩, some t, st')

/-- The HTTP front door (src/server.js lines 379-495): the route guards in
source order — health, CORS preflight, HEAD probe, `/debug-transport`,
`GET /sse` (stage a fresh channel, or 500 when setup throws), `POST /sse`,
and the final 404. -/
def handle (method url : String) (ext : Ext) (st : Broker) : HResult × Broker :=
  if method == "GET" && (url == "/" || strStartsWith url "/health") then
    (.responded ⟨200, some "ok"⟩, st)
  else if strStartsWith url "/sse" && method == "OPTIONS" then
    (.responded ⟨204, none⟩, st)
  else if strStartsWith url "/sse" && method == "HEAD" then
    (.responded ⟨200, none⟩, st)
  else if method == "GET" && url == "/debug-transport" then
    (.responded ⟨200, some ext.debugBody⟩, st)
  else if method == "GET" && strStartsWith url "/sse" then
    if ext.sseSetupOk then (.streamOpen, stageFresh st)
    else (.responded ⟨500, some "SSE init error"⟩, st)
  else if method == "POST" && strStartsWith url "/sse" then
    let r := handlePost (getSessionId url) ext.deliveryOk st
    (.responded r.1, r.2.2)
  else
    (.responded ⟨404, some "Not found"⟩, st)

/-- The broker operations the spec names: staging by `GET /sse`, resolution
(with possible promotion) by `POST /sse`, and unregistration by the close
notification. -/
inductive Op where
  | stage
  | post (sid : Option String)
  | close (t : Channel)

/-- Effect of one broker operation on the broker state. -/
def applyOp : Op → Broker → Broker
  | .stage, st => stageFresh st
  | .post sid, st => (resolve sid st).2
  | .close t, st => unregister t st

/-- Broker states reachable from process start by broker operations. -/
inductive Reachable : Broker → Prop where
  | init : Reachable initBroker
  | step {st : Broker} (op : Op) : Reachable st → Reachable (applyOp op st)

/-- JSON-ish JavaScript values as the tool handlers observe them.  Numbers
are restricted to the integer-valued ones (`Number.isInteger` is then the
`vint` pattern; no claim involves non-integer numbers). -/
inductive JVal where
  | vnull
  | vbool (b : Bool)
  | vstr (s : String)
  | vint (n : Int)
  | varr (xs : List JVal)
  | vobj (fields : List (String × JVal))
deriving Repr

mutual

/-- Platform `JSON.stringify`, rendered without the 2-space indentation the
source requests (no claim inspects the rendered text) and without string
escaping. -/
def jsonStringify : JVal → String
  | .vnull => "null"
  | .vbool b => if b then "true" else "false"
  | .vstr s => "\"" ++ s ++ "\""
  | .vint n => toString n
  | .varr xs => "[" ++ jsonArrayBody xs ++ "]"
  | .vobj fs => "\x7b" ++ jsonObjectBody fs ++ "\x7d"

/-- Comma-separated rendering of a JSON array's elements. -/
def jsonArrayBody : List JVal → String
  | [] => ""
  | [x] => jsonStringify x
  | x :: y :: xs => jsonStringify x ++ "," ++ jsonArrayBody (y :: xs)

/-- Comma-separated rendering of a JSON object's fields. -/
def jsonObjectBody : List (String × JVal) → String
  | [] => ""
  | [(k, v)] => "\"" ++ k ++ "\":" ++ jsonStringify v
  | (k, v) :: f :: fs =>
      "\"" ++ k ++ "\":" ++ jsonStringify v ++ "," ++ jsonObjectBody (f :: fs)

end

/-- JS `args?.k`: field access on the arguments object, `none` standing for
`undefined` (absent argument object, non-object arguments, or missing key). -/
def jGet : Option JVal → String → Option JVal
  | some (.vobj fs), k => fs.lookup k
  | _, _ => none

/-- One content block of a tool result (`{ type: "text", text }` in the
source). -/
structure ContentItem where
  type : String
  text : String
deriving DecidableEq, Repr

/-- The uniform tool-result envelope `{ content: [...] }`. -/
structure ToolResult where
  content : List ContentItem
deriving DecidableEq, Repr

/-- The `respond` tool (src/server.js lines 329-356): permissive coercion of
each argument (wrong-typed fields fall back to defaults), `repeat` clamped
to `[1,5]` via `Math.max(1, Math.min(5, repeatRaw))`, the output text
assembled from title, text, bullets and a fenced JSON block, and — in
`multi` mode — the content array filled by a loop of `repeat` pushes. -/
def respondTool (args : Option JVal) : ToolResult :=
  let mode := match jGet args "mode" with | some (.vstr s) => s | _ => "text"
  let title := match jGet args "title" with | some (.vstr s) => s | _ => ""
  let text := match jGet args "text" with | some (.vstr s) => s | _ => ""
  let bullets := match jGet args "bullets" with
    | some (.varr xs) =>
        xs.filterMap (fun x => match x with | .vstr s => some s | _ => none)
    | _ => []
  let repeatRaw : Int := match jGet args "repeat" with
    | some (.vint n) => n
    | _ => 1
  let rep : Int := max 1 (min 5 repeatRaw)
  let out := text
  let out := if title != "" then title ++ "\n\n" ++ out else out
  let out := if bullets.length != 0 then
      out ++ "\n\n- " ++ String.intercalate "\n- " bullets
    else out
  -- `args?.json && typeof args.json === "object"`: truthy objects are
  -- `vobj` and `varr` (`null` has typeof "object" but is falsy).
  let out := match jGet args "json" with
    | some (.vobj fs) =>
        out ++ "\n\n```json\n" ++ jsonStringify (.vobj fs) ++ "\n```"
    | some (.varr xs) =>
        out ++ "\n\n```json\n" ++ jsonStringify (.varr xs) ++ "\n```"
    | _ => out
  if mode == "multi" then
    { content := List.replicate rep.toNat ⟨"text", out⟩ }
  else
    { content := [⟨"text", out⟩] }

/-- The tool names the `ListToolsRequestSchema` handler advertises
(src/server.js lines 287-316): the capability table's keys. -/
def capabilityNames : List String := ["echo", "respond"]

/-- The `CallToolRequestSchema` handler (src/server.js lines 318-359).
The handler's `throw new Error(...)` for an unknown name is embedded as
`Except.error`. -/
def callTool (name : String) (args : Option JVal) : Except String ToolResult :=
  if name == "echo" then
    let text := match jGet args "text" with | some (.vstr s) => s | _ => ""
    .ok { content := [⟨"text", "echo: " ++ text⟩] }
  else if name == "respond" then
    .ok (respondTool args)
  else
    .error ("Unknown tool: " ++ name)

/-- What the client observes inside the tool-invocation envelope on the
stream: either a result or a tagged error value. -/
inductive ToolOutcome where
  | result (r : ToolResult)
  | errorResult (msg : String)
deriving DecidableEq, Repr

/-- Modelled from the spec: the transport library (the MCP SDK, absent from
src/) catches an error thrown by the request handler and reports it to the
client as an error result inside the tool-invocation envelope over the
streaming channel, while the triggering HTTP POST completes normally at
the transport level (status 200).  The second component is that HTTP
status. -/
def dispatchEnvelope (name : String) (args : Option JVal) : ToolOutcome × Nat :=
  match callTool name args with
  | .ok r => (.result r, 200)
  | .error msg => (.errorResult msg, 200)

/-! ### Helper lemmas about the map and stack primitives -/

theorem lookup_none_of_mapHas_false (m : List (String × Channel)) (k : String)
    (h : mapHas m k = false) : m.lookup k = none := by
  unfold mapHas at h
  cases hl : m.lookup k with
  | none => rfl
  | some v => rw [hl] at h; simp at h

theorem lookup_append_single (m : List (String × Channel)) (k : String)
    (v : Channel) (h : mapHas m k = false) :
    (m ++ [(k, v)]).lookup k = some v := by
  induction m with
  | nil => simp [List.lookup]
  | cons p rest ih =>
      cases hpk : k == p.1 with
      | true =>
          exfalso
          unfold mapHas at h
          simp [List.lookup, hpk] at h
      | false =>
          have hrest : mapHas rest k = false := by
            unfold mapHas at h ⊢
            simpa [List.lookup, hpk] using h
          simpa [List.lookup, hpk] using ih hrest

theorem mapSet_of_mapHas_false (m : List (String × Channel)) (k : String)
    (v : Channel) (h : mapHas m k = false) :
    mapSet m k v = m ++ [(k, v)] := by
  simp [mapSet, h]

theorem not_key_of_mapHas_false (m : List (String × Channel)) (k : String)
    (h : mapHas m k = false) : ∀ p ∈ m, p.1 ≠ k := by
  induction m with
  | nil => simp
  | cons p rest ih =>
      intro q hq
      cases hpk : k == p.1 with
      | true =>
          exfalso
          unfold mapHas at h
          simp [List.lookup, hpk] at h
      | false =>
          have hrest : mapHas rest k = false := by
            unfold mapHas at h ⊢
            simpa [List.lookup, hpk] using h
          rcases List.mem_cons.mp hq with hq | hq
          · subst hq
            have hne : k ≠ q.1 := by
              intro hc
              rw [hc] at hpk
              simp at hpk
            exact fun hc => hne hc.symm
          · exact ih hrest q hq

theorem deleteFirstVal_of_not_memVal (m : List (String × Channel)) (t : Channel)
    (h : ∀ p ∈ m, p.2 ≠ t) : deleteFirstVal m t = m := by
  induction m with
  | nil => rfl
  | cons p rest ih =>
      have hp : p.2 ≠ t := h p (by simp)
      have : (p.2 == t) = false := by simpa using hp
      simp [deleteFirstVal, this]
      exact ih fun q hq => h q (by simp [hq])

theorem deleteFirstVal_sublist (m : List (String × Channel)) (t : Channel) :
    List.Sublist (deleteFirstVal m t) m := by
  induction m with
  | nil => simp [deleteFirstVal]
  | cons p rest ih =>
      by_cases hp : (p.2 == t) = true
      · simp [deleteFirstVal, hp]
      · simp only [Bool.not_eq_true] at hp
        simpa [deleteFirstVal, hp] using ih.cons₂ p

theorem not_memVal_deleteFirstVal (m : List (String × Channel)) (t : Channel)
    (h : m.countP (fun p => p.2 == t) ≤ 1) :
    ∀ p ∈ deleteFirstVal m t, p.2 ≠ t := by
  induction m with
  | nil => simp [deleteFirstVal]
  | cons p rest ih =>
      by_cases hp : (p.2 == t) = true
      · intro q hq
        rw [List.countP_cons] at h
        simp only [hp, if_true] at h
        have hz : rest.countP (fun p => p.2 == t) = 0 := by omega
        have := List.countP_eq_zero.mp hz q
        simp only [deleteFirstVal, hp, if_true] at hq
        simpa using this hq
      · intro q hq
        simp only [Bool.not_eq_true] at hp
        simp only [deleteFirstVal, hp, Bool.false_eq_true, if_false,
          List.mem_cons] at hq
        rcases hq with hq | hq
        · subst hq; simpa using hp
        · rw [List.countP_cons] at h
          simp only [hp] at h
          exact ih (by omega) q hq

/-! ### The broker state invariant -/

/-- The safety invariant on broker state: the staged stack has no duplicate
channels, every channel recorded anywhere was drawn from the freshness
supply, no channel is simultaneously staged and bound, and the session map
has no duplicate identifiers. -/
def brokerInv (st : Broker) : Prop :=
  st.pending.Nodup ∧
  (∀ t ∈ st.pending, t < st.nextId) ∧
  (∀ p ∈ st.transports, p.2 < st.nextId) ∧
  (∀ t ∈ st.pending, ∀ p ∈ st.transports, p.2 ≠ t) ∧
  (st.transports.map Prod.fst).Nodup

theorem brokerInv_init : brokerInv initBroker := by
  refine ⟨?_, ?_, ?_, ?_, ?_⟩ <;> simp [initBroker]

theorem brokerInv_applyOp (op : Op) (st : Broker) (h : brokerInv st) :
    brokerInv (applyOp op st) := by
  obtain ⟨hnd, hpb, htb, hdisj, hkeys⟩ := h
  cases op with
  | stage =>
      show brokerInv ⟨st.transports, st.pending ++ [st.nextId], st.nextId + 1⟩
      refine ⟨?_, ?_, ?_, ?_, ?_⟩
      · rw [List.nodup_append]
        refine ⟨hnd, List.nodup_singleton _, ?_⟩
        intro a ha hb
        simp only [List.mem_singleton] at hb
        subst hb
        exact absurd (hpb _ ha) (lt_irrefl _)
      · intro x hx
        rcases List.mem_append.mp hx with hx | hx
        · exact Nat.lt_succ_of_lt (hpb x hx)
        · simp only [List.mem_singleton] at hx
          subst hx
          exact Nat.lt_succ_self _
      · intro p hp
        exact Nat.lt_succ_of_lt (htb p hp)
      · intro x hx p hp
        rcases List.mem_append.mp hx with hx | hx
        · exact hdisj x hx p hp
        · simp only [List.mem_singleton] at hx
          subst hx
          exact Nat.ne_of_lt (htb p hp)
      · exact hkeys
  | post sid =>
      show brokerInv (resolve sid st).2
      by_cases hT : sidTruthy sid = true
      · by_cases hH : mapHas st.transports (sidVal sid) = true
        · have hres : resolve sid st = (st.transports.lookup (sidVal sid), st) := by
            simp [resolve, hT, hH]
          rw [hres]
          exact ⟨hnd, hpb, htb, hdisj, hkeys⟩
        · have hH' : mapHas st.transports (sidVal sid) = false := by
            simpa using hH
          rcases List.eq_nil_or_concat st.pending with hnil | ⟨l, t, hconcat⟩
          · have hres : resolve sid st = (none, st) := by
              simp [resolve, hT, hH', hnil]
            rw [hres]
            exact ⟨hnd, hpb, htb, hdisj, hkeys⟩
          · rw [List.concat_eq_append] at hconcat
            have hres : resolve sid st =
                (some t,
                 { st with
                     pending := l,
                     transports := st.transports ++ [(sidVal sid, t)] }) := by
              simp [resolve, hT, hH', hconcat, List.getLast?_concat,
                List.dropLast_concat, mapSet_of_mapHas_false _ _ _ hH']
            rw [hres]
            rw [hconcat] at hnd hpb hdisj
            have hndl := List.nodup_append.mp hnd
            refine ⟨hndl.1, ?_, ?_, ?_, ?_⟩
            · intro x hx
              exact hpb x (List.mem_append.mpr (Or.inl hx))
            · intro p hp
              rcases List.mem_append.mp hp with hp | hp
              · exact htb p hp
              · simp only [List.mem_singleton] at hp
                subst hp
                exact hpb t (List.mem_append.mpr (Or.inr (by simp)))
            · intro x hx p hp
              rcases List.mem_append.mp hp with hp | hp
              · exact hdisj x (List.mem_append.mpr (Or.inl hx)) p hp
              · simp only [List.mem_singleton] at hp
                subst hp
                intro hc
                exact hndl.2.2 hx (List.mem_singleton.mpr hc.symm)
            · rw [List.map_append, List.nodup_append]
              refine ⟨hkeys, by simp, ?_⟩
              intro a ha hb
              simp only [List.map_cons, List.map_nil, List.mem_singleton] at hb
              subst hb
              rcases List.mem_map.mp ha with ⟨p, hpm, hpa⟩
              exact not_key_of_mapHas_false _ _ hH' p hpm hpa
      · have hT' : sidTruthy sid = false := by simpa using hT
        have hres : resolve sid st = (st.pending.getLast?, st) := by
          simp [resolve, hT']
        rw [hres]
        exact ⟨hnd, hpb, htb, hdisj, hkeys⟩
  | close t =>
      show brokerInv ⟨deleteFirstVal st.transports t, st.pending.erase t, st.nextId⟩
      refine ⟨hnd.erase t, ?_, ?_, ?_, ?_⟩
      · intro x hx
        exact hpb x (List.mem_of_mem_erase hx)
      · intro p hp
        exact htb p ((deleteFirstVal_sublist _ _).subset hp)
      · intro x hx p hp
        exact hdisj x (List.mem_of_mem_erase hx) p
          ((deleteFirstVal_sublist _ _).subset hp)
      · exact ((deleteFirstVal_sublist st.transports t).map Prod.fst).nodup hkeys

theorem brokerInv_of_reachable (st : Broker) (h : Reachable st) : brokerInv st := by
  induction h with
  | init => exact brokerInv_init
  | step op _ ih => exact brokerInv_applyOp op _ ih

/-! ### Characterization of the resolve branches -/

theorem resolve_fallback (st : Broker) (sid : Option String)
    (h : sidTruthy sid = false) :
    resolve sid st = (st.pending.getLast?, st) := by
  simp [resolve, h]

theorem resolve_reuse (s : String) (st : Broker) (hs : s ≠ "")
    (hb : mapHas st.transports s = true) :
    resolve (some s) st = (st.transports.lookup s, st) := by
  have hT : sidTruthy (some s) = true := by simp [sidTruthy, bne_iff_ne, hs]
  simp [resolve, hT, sidVal, hb]

theorem resolve_promote (s : String) (st : Broker) (l : List Channel)
    (t : Channel) (hs : s ≠ "") (hb : mapHas st.transports s = false)
    (hp : st.pending = l ++ [t]) :
    resolve (some s) st =
      (some t,
       { st with
           pending := l,
           transports := st.transports ++ [(s, t)] }) := by
  have hT : sidTruthy (some s) = true := by simp [sidTruthy, bne_iff_ne, hs]
  simp [resolve, hT, sidVal, hb, hp, List.getLast?_concat,
    List.dropLast_concat, mapSet_of_mapHas_false _ _ _ hb]

/-! ### Claim theorems -/

/-- C1: for every POST /sse whose sessionId is present (a non-empty value,
see C10 for the empty string) and not yet bound, resolution promotes the
most recently staged channel: the last-inserted element of the staged
stack is removed and bound to the sessionId in the session map, and the
promoted channel is the one the message is delivered to. -/
theorem promote_pops_most_recent_staged (s : String) (st : Broker)
    (l : List Channel) (t : Channel)
    (hs : s ≠ "") (hb : mapHas st.transports s = false)
    (hp : st.pending = l ++ [t]) :
    resolve (some s) st =
      (some t,
       { st with
           pending := l,
           transports := st.transports ++ [(s, t)] }) ∧
    handlePost (some s) true st =
      (⟨200, none⟩, some t,
       { st with
           pending := l,
           transports := st.transports ++ [(s, t)] }) := by
  have hres := resolve_promote s st l t hs hb hp
  exact ⟨hres, by simp [handlePost, hres]⟩

/-- Witness for C1: one bound session, two staged channels; a fresh
sessionId claims the most recently staged channel `7`. -/
theorem promote_pops_most_recent_staged_witness :
    resolve (some "A") ⟨[], [3, 7], 8⟩ = (some 7, ⟨[("A", 7)], [3], 8⟩) ∧
    handlePost (some "A") true ⟨[], [3, 7], 8⟩ =
      (⟨200, none⟩, some 7, ⟨[("A", 7)], [3], 8⟩) :=
  promote_pops_most_recent_staged "A" ⟨[], [3, 7], 8⟩ [3] 7
    (by decide) (by decide) rfl

/-- C2: a sessionId already present in the session map resolves to the
channel bound to it, leaving the broker state (in particular the staged
stack) untouched; after a first POST with a fresh sessionId promotes a
channel, a second POST with the same sessionId returns that same channel
without re-promotion. -/
theorem bound_sessionId_reuses_channel (s : String) (st : Broker)
    (hs : s ≠ "") :
    (mapHas st.transports s = true →
      resolve (some s) st = (st.transports.lookup s, st)) ∧
    (∀ l t, st.pending = l ++ [t] → mapHas st.transports s = false →
      (resolve (some s) st).1 = some t ∧
      resolve (some s) ((resolve (some s) st).2) =
        (some t, (resolve (some s) st).2)) := by
  constructor
  · intro hb
    exact resolve_reuse s st hs hb
  · intro l t hp hb
    have hres := resolve_promote s st l t hs hb hp
    rw [hres]
    have hlk : (st.transports ++ [(s, t)]).lookup s = some t :=
      lookup_append_single st.transports s t hb
    have hb2 : mapHas (st.transports ++ [(s, t)]) s = true := by
      simp [mapHas, hlk]
    refine ⟨rfl, ?_⟩
    rw [resolve_reuse s _ hs hb2]
    simp [hlk]

/-- Witness for C2: reuse of a bound channel and the bind-then-reuse
round trip at concrete states. -/
theorem bound_sessionId_reuses_channel_witness :
    resolve (some "B") ⟨[("B", 2)], [], 3⟩ = (some 2, ⟨[("B", 2)], [], 3⟩) ∧
    (resolve (some "C") ⟨[], [9], 10⟩).1 = some 9 ∧
    resolve (some "C") ((resolve (some "C") ⟨[], [9], 10⟩).2) =
      (some 9, (resolve (some "C") ⟨[], [9], 10⟩).2) :=
  ⟨(bound_sessionId_reuses_channel "B" ⟨[("B", 2)], [], 3⟩ (by decide)).1 rfl,
   ((bound_sessionId_reuses_channel "C" ⟨[], [9], 10⟩ (by decide)).2 [] 9
      rfl rfl).1,
   ((bound_sessionId_reuses_channel "C" ⟨[], [9], 10⟩ (by decide)).2 [] 9
      rfl rfl).2⟩

/-- C3 counterexample: a broker state with an empty staged stack but a
bound channel (sessionId "A" bound to channel 5).  A POST without a
sessionId does not fall back to the bound channel: no channel resolves
and the request is rejected with 409, contradicting the claim that it
would be delivered. -/
theorem no_fallback_to_bound_channel :
    ((⟨[("A", 5)], [], 6⟩ : Broker).transports ≠ []) ∧
    ((⟨[("A", 5)], [], 6⟩ : Broker).pending = []) ∧
    handlePost none true ⟨[("A", 5)], [], 6⟩ =
      (⟨409, some "No active SSE transport. Open GET /sse first."⟩, none,
       ⟨[("A", 5)], [], 6⟩) := by
  refine ⟨by decide, rfl, rfl⟩

/-- C3 (amended): a POST without a sessionId falls back only to the most
recently staged channel (peeked, not removed, with the state unchanged);
when nothing is staged the request is rejected with 409 even if bound
channels exist — there is no fallback to a bound channel. -/
theorem fallback_peeks_most_recent_staged_only (st : Broker) (d : Bool) :
    resolve none st = (st.pending.getLast?, st) ∧
    (st.pending = [] →
      handlePost none d st =
        (⟨409, some "No active SSE transport. Open GET /sse first."⟩,
         none, st)) := by
  refine ⟨resolve_fallback st none rfl, ?_⟩
  intro hp
  simp [handlePost, resolve_fallback st none rfl, hp]

/-- Witness for the amended C3: the peek at a staged channel, and the 409
at an empty broker. -/
theorem fallback_peeks_most_recent_staged_only_witness :
    resolve none ⟨[], [1, 2], 3⟩ = (some 2, ⟨[], [1, 2], 3⟩) ∧
    handlePost none true initBroker =
      (⟨409, some "No active SSE transport. Open GET /sse first."⟩,
       none, initBroker) :=
  ⟨(fallback_peeks_most_recent_staged_only ⟨[], [1, 2], 3⟩ true).1,
   (fallback_peeks_most_recent_staged_only initBroker true).2 rfl⟩

/-- C10: a sessionId query parameter that is present but equal to the empty
string is treated exactly as an absent parameter: the degraded fallback
path peeks the most recently staged channel, the state is unchanged (so
no promotion happens and no session-map entry is created). -/
theorem empty_sessionId_treated_as_absent (url : String) (st : Broker)
    (h : getSessionId url = some "") :
    resolve (getSessionId url) st = resolve none st ∧
    resolve (getSessionId url) st = (st.pending.getLast?, st) := by
  rw [h, resolve_fallback st (some "") rfl, resolve_fallback st none rfl]
  exact ⟨rfl, rfl⟩

/-- Witness for C10 at the URL `/sse?sessionId=` and a broker with one
staged channel. -/
theorem empty_sessionId_treated_as_absent_witness :
    getSessionId "/sse?sessionId=" = some "" ∧
    resolve (getSessionId "/sse?sessionId=") ⟨[], [4], 5⟩ =
      resolve none ⟨[], [4], 5⟩ ∧
    resolve (getSessionId "/sse?sessionId=") ⟨[], [4], 5⟩ =
      (some 4, ⟨[], [4], 5⟩) :=
  ⟨by decide,
   (empty_sessionId_treated_as_absent "/sse?sessionId=" ⟨[], [4], 5⟩
      (by decide)).1,
   (empty_sessionId_treated_as_absent "/sse?sessionId=" ⟨[], [4], 5⟩
      (by decide)).2⟩

/-- C4 counterexample: on the no-channel path the status is indeed 409,
but the exact body is "No active SSE transport. Open GET /sse first.",
not the claimed "No active transport. Open GET /sse first.". -/
theorem post_409_body_differs_from_claim :
    (handlePost none true initBroker).1.status = 409 ∧
    (handlePost none true initBroker).1.body ≠
      some "No active transport. Open GET /sse first." ∧
    (handlePost none true initBroker).1.body =
      some "No active SSE transport. Open GET /sse first." := by
  exact ⟨rfl, by decide, rfl⟩

/-- C4 (amended): when no channel resolves, the POST is answered 409 with
the exact body "No active SSE transport. Open GET /sse first."; when a
channel resolves and delivery succeeds, the request completes with
status 200. -/
theorem post_status_and_409_body (sid : Option String) (st : Broker)
    (d : Bool) :
    ((resolve sid st).1 = none →
      handlePost sid d st =
        (⟨409, some "No active SSE transport. Open GET /sse first."⟩,
         none, (resolve sid st).2)) ∧
    (∀ t, (resolve sid st).1 = some t →
      handlePost sid true st = (⟨200, none⟩, some t, (resolve sid st).2)) := by
  constructor
  · intro h
    have hcomb : resolve sid st = (none, (resolve sid st).2) := by
      rw [← h]
    unfold handlePost
    rw [hcomb]
  · intro t h
    have hcomb : resolve sid st = (some t, (resolve sid st).2) := by
      rw [← h]
    unfold handlePost
    rw [hcomb]
    rfl

/-- Witness for the amended C4: 409 at the empty broker, 200 once a
channel is staged. -/
theorem post_status_and_409_body_witness :
    handlePost none true initBroker =
      (⟨409, some "No active SSE transport. Open GET /sse first."⟩,
       none, initBroker) ∧
    handlePost none true ⟨[], [4], 5⟩ = (⟨200, none⟩, some 4, ⟨[], [4], 5⟩) :=
  ⟨(post_status_and_409_body none initBroker true).1 rfl,
   (post_status_and_409_body none ⟨[], [4], 5⟩ true).2 4 rfl⟩

/-- C5 counterexample: GET /debug-transport matches none of the routes in
the spec's routing table — with method "GET" the health guard is false
and the URL does not start with "/sse", which rules out all five table
rows — yet the server answers it 200 with the debug body, not 404. -/
theorem debug_transport_route_not_404 :
    (("GET" == "GET") && (("/debug-transport" == "/") ||
      strStartsWith "/debug-transport" "/health")) = false ∧
    strStartsWith "/debug-transport" "/sse" = false ∧
    handle "GET" "/debug-transport" ⟨true, true, "[]"⟩ initBroker =
      (.responded ⟨200, some "[]"⟩, initBroker) := by
  exact ⟨by decide, by decide, rfl⟩

/-- C5 (amended): every request matching none of the server's actual
routes — the spec's table plus the debug route GET /debug-transport — is
answered 404 "Not found" with the broker state unchanged. -/
theorem unmatched_routes_get_404 (method url : String) (ext : Ext)
    (st : Broker)
    (h1 : (method == "GET" && (url == "/" || strStartsWith url "/health"))
            = false)
    (h2 : (strStartsWith url "/sse" && method == "OPTIONS") = false)
    (h3 : (strStartsWith url "/sse" && method == "HEAD") = false)
    (h4 : (method == "GET" && url == "/debug-transport") = false)
    (h5 : (method == "GET" && strStartsWith url "/sse") = false)
    (h6 : (method == "POST" && strStartsWith url "/sse") = false) :
    handle method url ext st = (.responded ⟨404, some "Not found"⟩, st) := by
  simp [handle, h1, h2, h3, h4, h5, h6]

/-- Witness for the amended C5: a PUT to an unknown path. -/
theorem unmatched_routes_get_404_witness :
    handle "PUT" "/x" ⟨true, true, ""⟩ initBroker =
      (.responded ⟨404, some "Not found"⟩, initBroker) :=
  unmatched_routes_get_404 "PUT" "/x" ⟨true, true, ""⟩ initBroker
    (by decide) (by decide) (by decide) (by decide) (by decide) (by decide)

/-- C6: the close-notification cleanup is idempotent.  In any state where
the channel occurs at most once in each collection (which the broker
maintains, see the invariant theorems), unregistering removes it from the
staged stack and the session map, a second unregister is a no-op, and
unregistering a channel held by neither collection changes nothing;
afterwards the session map no longer contains the channel. -/
theorem unregister_idempotent (t : Channel) (st : Broker)
    (hp : st.pending.count t ≤ 1)
    (hm : st.transports.countP (fun p => p.2 == t) ≤ 1) :
    unregister t (unregister t st) = unregister t st ∧
    (∀ p ∈ (unregister t st).transports, p.2 ≠ t) ∧
    t ∉ (unregister t st).pending ∧
    (t ∉ st.pending → (∀ p ∈ st.transports, p.2 ≠ t) →
      unregister t st = st) := by
  have hnp : t ∉ st.pending.erase t := by
    intro hmem
    have hc := List.count_erase_self t st.pending
    have hpos := List.count_pos_iff.mpr hmem
    omega
  have hnv : ∀ p ∈ deleteFirstVal st.transports t, p.2 ≠ t :=
    not_memVal_deleteFirstVal st.transports t hm
  refine ⟨?_, hnv, hnp, ?_⟩
  · show (⟨deleteFirstVal (deleteFirstVal st.transports t) t,
           (st.pending.erase t).erase t, st.nextId⟩ : Broker) =
         ⟨deleteFirstVal st.transports t, st.pending.erase t, st.nextId⟩
    rw [List.erase_of_not_mem hnp, deleteFirstVal_of_not_memVal _ _ hnv]
  · intro h1 h2
    show (⟨deleteFirstVal st.transports t, st.pending.erase t, st.nextId⟩
            : Broker) = st
    rw [List.erase_of_not_mem h1, deleteFirstVal_of_not_memVal _ _ h2]

/-- Witness for C6 with channel 2 staged and channel 1 bound. -/
theorem unregister_idempotent_witness :
    unregister 2 (unregister 2 ⟨[("A", 1)], [2], 3⟩) =
      unregister 2 ⟨[("A", 1)], [2], 3⟩ ∧
    (∀ p ∈ (unregister 2 (⟨[("A", 1)], [2], 3⟩ : Broker)).transports,
       p.2 ≠ 2) ∧
    2 ∉ (unregister 2 (⟨[("A", 1)], [2], 3⟩ : Broker)).pending ∧
    (2 ∉ (⟨[("A", 1)], [2], 3⟩ : Broker).pending →
      (∀ p ∈ (⟨[("A", 1)], [2], 3⟩ : Broker).transports, p.2 ≠ 2) →
      unregister 2 ⟨[("A", 1)], [2], 3⟩ = ⟨[("A", 1)], [2], 3⟩) :=
  unregister_idempotent 2 ⟨[("A", 1)], [2], 3⟩ (by decide) (by decide)

/-- C7: in every broker state reachable by broker operations (staging via
GET /sse, resolve including promotion via POST /sse, unregister via the
close notification), no channel is simultaneously in the staged stack and
in the session map — so each channel is in exactly one of Staged, Bound,
Closed — and no session identifier occurs twice as a key of the session
map. -/
theorem reachable_states_channel_exclusive (st : Broker)
    (h : Reachable st) :
    (∀ t ∈ st.pending, ∀ p ∈ st.transports, p.2 ≠ t) ∧
    (st.transports.map Prod.fst).Nodup := by
  have hi := brokerInv_of_reachable st h
  exact ⟨hi.2.2.2.1, hi.2.2.2.2⟩

/-- Witness for C7 at the reachable state obtained by staging one channel
and promoting it under sessionId "A". -/
theorem reachable_states_channel_exclusive_witness :
    (∀ t ∈ (applyOp (.post (some "A")) (applyOp .stage initBroker)).pending,
       ∀ p ∈ (applyOp (.post (some "A"))
                (applyOp .stage initBroker)).transports, p.2 ≠ t) ∧
    ((applyOp (.post (some "A"))
        (applyOp .stage initBroker)).transports.map Prod.fst).Nodup :=
  reachable_states_channel_exclusive _
    (Reachable.step (.post (some "A")) (Reachable.step .stage Reachable.init))

/-- C8: for the respond tool in multi mode, the requested repeat count is
clamped to [1,5] and the result contains exactly that many content items. -/
theorem respond_multi_repeat_clamped (args : Option JVal) (n : Int)
    (hm : jGet args "mode" = some (.vstr "multi"))
    (hr : jGet args "repeat" = some (.vint n)) :
    (respondTool args).content.length = (max 1 (min 5 n)).toNat ∧
    1 ≤ (respondTool args).content.length ∧
    (respondTool args).content.length ≤ 5 := by
  have hlen : (respondTool args).content.length = (max 1 (min 5 n)).toNat := by
    simp [respondTool, hm, hr]
  refine ⟨hlen, ?_, ?_⟩ <;> rw [hlen] <;> omega

/-- Witness for C8: a requested repeat of 0 yields one content item, a
requested repeat of 9 yields five. -/
theorem respond_multi_repeat_clamped_witness :
    (respondTool (some (.vobj [("mode", .vstr "multi"), ("text", .vstr "x"),
        ("repeat", .vint 0)]))).content.length = 1 ∧
    (respondTool (some (.vobj [("mode", .vstr "multi"), ("text", .vstr "x"),
        ("repeat", .vint 9)]))).content.length = 5 :=
  ⟨(respond_multi_repeat_clamped
      (some (.vobj [("mode", .vstr "multi"), ("text", .vstr "x"),
        ("repeat", .vint 0)])) 0 rfl rfl).1.trans (by decide),
   (respond_multi_repeat_clamped
      (some (.vobj [("mode", .vstr "multi"), ("text", .vstr "x"),
        ("repeat", .vint 9)])) 9 rfl rfl).1.trans (by decide)⟩

/-- C9: a tool invocation whose name is not in the capability table fails
with an "unknown tool" error: the dispatcher signals it (as an
`Except.error`, embedding the handler's throw), the envelope reports it
to the client as a tagged error result — never an exception crossing the
channel boundary — and the triggering HTTP POST still completes with 200
at the transport level. -/
theorem unknown_tool_tagged_error (name : String) (args : Option JVal)
    (h : name ∉ capabilityNames) :
    callTool name args = .error ("Unknown tool: " ++ name) ∧
    dispatchEnvelope name args =
      (.errorResult ("Unknown tool: " ++ name), 200) := by
  simp only [capabilityNames, List.mem_cons, List.not_mem_nil, or_false,
    not_or] at h
  have e1 : (name == "echo") = false := by
    simpa using h.1
  have e2 : (name == "respond") = false := by
    simpa using h.2
  have hc : callTool name args = .error ("Unknown tool: " ++ name) := by
    simp [callTool, e1, e2]
  exact ⟨hc, by simp [dispatchEnvelope, hc]⟩

/-- Witness for C9 at the tool name "doesNotExist". -/
theorem unknown_tool_tagged_error_witness :
    callTool "doesNotExist" none =
      .error ("Unknown tool: " ++ "doesNotExist") ∧
    dispatchEnvelope "doesNotExist" none =
      (.errorResult ("Unknown tool: " ++ "doesNotExist"), 200) :=
  unknown_tool_tagged_error "doesNotExist" none (by decide)

end MCPServer
